import Mathlib

/-!
Shallow embedding of the algorithmic parts of `src/lib/core.js` of the
fabric-customizer repository (keyboard zoom, keyboard shortcut handlers,
snapshot history restore, effect/filter parameter mapping, line/path angle
snapping, path proximity snapping and path cancellation), together with
proofs settling the specification claims about them.

Numeric modelling: JavaScript numbers are modelled exactly — by `ℚ` where
the code only performs field arithmetic, truncation and rounding, and by
`ℝ` where the code calls the trigonometric host functions `Math.atan2`,
`Math.cos`, `Math.sin` and `Math.sqrt`.
-/

namespace FabricCustomizer

/-- JavaScript `parseInt` applied to a number: truncation toward zero. -/
def jsTrunc (q : ℚ) : ℤ :=
  if 0 ≤ q then ⌊q⌋ else -⌊-q⌋

/-- JavaScript `Math.round`: nearest integer, halves toward `+∞`. -/
def jsRound (q : ℚ) : ℤ :=
  ⌊q + 1 / 2⌋

/-! ## Zoom controller (`core.js` lines 2185–2243) -/

/-- `minZoom` (line 2185). -/
def minZoom : ℚ := 5 / 100

/-- `maxZoom` (line 2186). -/
def maxZoom : ℚ := 3

/-- Result of the loop `while ((u % 25) !== 0) u = u - 1` (lines 2201–2203):
the greatest multiple of 25 that is `≤ u`.  The JavaScript remainder and
Lean's `emod` are zero for exactly the same `u`, and subtracting `u % 25`
(with `%` as `emod`) is the closed form of the loop for every integer. -/
def floorMult25 (u : ℤ) : ℤ := u - u % 25

/-- Result of the loop `while ((u % 25) !== 0) u = u + 1` (lines 2224–2226),
which the source only enters when `u % 25 ≠ 0`: the least multiple of 25
that is `≥ u`. -/
def ceilMult25 (u : ℤ) : ℤ := u + (25 - u % 25)

/-- The `ctrl`+`-` branch of `zoomWithKeys` (lines 2193–2212). -/
def zoomOutKey (z : ℚ) : ℚ :=
  if z = minZoom then z
  else
    let u := jsTrunc (z * 100)
    let u1 := if u % 25 ≠ 0 then floorMult25 u else u - 25
    let z1 := (u1 : ℚ) / 100
    if z1 ≤ 0 then minZoom else z1

/-- The `ctrl`+`+` branch of `zoomWithKeys` (lines 2216–2235). -/
def zoomInKey (z : ℚ) : ℚ :=
  if z = maxZoom then z
  else
    let u := jsTrunc (z * 100)
    let u1 := if u % 25 ≠ 0 then ceilMult25 u else u + 25
    let z1 := (u1 : ℚ) / 100
    if maxZoom < z1 then maxZoom else z1

/-- A keyboard event as the `keydown` handlers in `core.js` observe it: the
numeric key code, the ctrl-modifier flag, and whether a text input or
textarea has focus at dispatch time
(`document.querySelectorAll('textarea:focus, input:focus').length > 0`). -/
structure KeyEvent where
  key : Nat
  ctrlKey : Bool
  inputFocused : Bool
deriving DecidableEq

/-- `zoomWithKeys` (lines 2189–2243) as a pure function of the current zoom.
Note: unlike the other keyboard handlers, it never consults
`inputFocused`. -/
def zoomWithKeys (e : KeyEvent) (z : ℚ) : ℚ :=
  if e.key = 189 ∧ e.ctrlKey then zoomOutKey z
  else if e.key = 187 ∧ e.ctrlKey then zoomInKey z
  else if (e.key = 96 ∨ e.key = 48 ∨ e.key = 192) ∧ e.ctrlKey then 1
  else z

/-- A keyboard zoom command: the ctrl+`-` / ctrl+`+` chords of the claim. -/
inductive ZoomCmd
  | dec
  | inc
deriving DecidableEq

/-- One keyboard zoom command applied to the current zoom. -/
def zoomCmdStep (c : ZoomCmd) (z : ℚ) : ℚ :=
  match c with
  | .dec => zoomOutKey z
  | .inc => zoomInKey z

/-- A sequence of keyboard zoom commands applied in order. -/
def applyZoomCmds (cmds : List ZoomCmd) (z : ℚ) : ℚ :=
  cmds.foldl (fun acc c => zoomCmdStep c acc) z

/-! ## Other keyboard handlers (`core.js` lines 164–172, 331–360, 363–379) -/

/-- The arrow-key `keydown` handler (lines 331–360), acting on the
`(left, top)` position of the active object, if any. -/
def arrowKeydown (e : KeyEvent) (activeObject : Option (ℚ × ℚ)) : Option (ℚ × ℚ) :=
  if e.inputFocused then activeObject
  else
    match activeObject with
    | none => none
    | some p =>
        if e.key = 37 then some (p.1 - 1, p.2)
        else if e.key = 39 then some (p.1 + 1, p.2)
        else if e.key = 38 then some (p.1, p.2 - 1)
        else if e.key = 40 then some (p.1, p.2 + 1)
        else some p

/-- The delete-key `keydown` handler (lines 363–379): the canvas object list
after the event, given the ids of the currently selected objects. -/
def deleteKeydown (e : KeyEvent) (objects active : List Nat) : List Nat :=
  if e.key = 46 ∧ ¬ e.inputFocused then
    objects.filter (fun o => !active.contains o)
  else objects

/-! ## Snapshot history (`core.js` lines 119–148, 162–173) -/

/-- Editor state for the history claims: the canvas document plus the
undo/redo lists of serialized snapshots held by the history stack. -/
structure EditorState (Doc : Type) where
  canvas : Doc
  undoList : List String
  redoList : List String

/-- Modelled from the spec: the vendor history stack `window.UndoRedoStack`
is not under `src/`; §4.1 of the spec says `undo()` moves the current
pointer back one entry, so the most recent undo entry moves to the redo
list. -/
def historyUndo {Doc : Type} (st : EditorState Doc) : EditorState Doc :=
  match st.undoList.getLast? with
  | none => st
  | some s =>
      { st with undoList := st.undoList.dropLast, redoList := st.redoList ++ [s] }

/-- Modelled from the spec: the vendor history stack `window.UndoRedoStack`
is not under `src/`; §4.1 of the spec says `redo()` moves the pointer
forward one entry, so the most recent redo entry moves back to the undo
list. -/
def historyRedo {Doc : Type} (st : EditorState Doc) : EditorState Doc :=
  match st.redoList.getLast? with
  | none => st
  | some s =>
      { st with undoList := st.undoList ++ [s], redoList := st.redoList.dropLast }

/-- `ImageEditor.undo` (lines 119–131).  `parse` models `JSON.parse`,
returning `none` when parsing would throw.  The `try`/`catch` of the source
means a parse failure leaves the canvas untouched, while the history move
(`this.history.undo()`, which runs before the parse) persists.  The
`current && ...` guard skips the load for an empty (falsy) snapshot
string. -/
def undoOp {Doc : Type} (parse : String → Option Doc) (st : EditorState Doc) :
    EditorState Doc :=
  match st.undoList.getLast? with
  | none => st
  | some current =>
      let st1 := historyUndo st
      if current = "" then st1
      else
        match parse current with
        | none => st1
        | some doc => { st1 with canvas := doc }

/-- `ImageEditor.redo` (lines 136–148), mirror image of `undoOp`. -/
def redoOp {Doc : Type} (parse : String → Option Doc) (st : EditorState Doc) :
    EditorState Doc :=
  match st.redoList.getLast? with
  | none => st
  | some current =>
      let st1 := historyRedo st
      if current = "" then st1
      else
        match parse current with
        | none => st1
        | some doc => { st1 with canvas := doc }

/-- `ctrZY` (lines 164–172): ctrl+Z / ctrl+Y dispatch, suppressed while a
text input or textarea has focus. -/
def ctrZY {Doc : Type} (parse : String → Option Doc) (e : KeyEvent)
    (st : EditorState Doc) : EditorState Doc :=
  if e.ctrlKey ∧ ¬ e.inputFocused then
    if e.key = 90 then undoOp parse st
    else if e.key = 89 then redoOp parse st
    else st
  else st

/-! ## Effects/filter parameter mapping (`core.js` lines 2526–2625) -/

/-- The effect panel's slider state, the shape returned by
`getCurrentEffect`. -/
structure Effects where
  opacity : ℚ
  blur : ℚ
  brightness : ℚ
  saturation : ℚ
  gammaR : ℚ
  gammaG : ℚ
  gammaB : ℚ
deriving DecidableEq

/-- The effect identifier strings the panel passes to `getUpdatedFilter`
(`'opacity'`, `'blur'`, `'brightness'`, `'saturation'`, `'gamma.r'`,
`'gamma.g'`, `'gamma.b'`). -/
inductive EffectKey
  | opacity
  | blur
  | brightness
  | saturation
  | gammaR
  | gammaG
  | gammaB
deriving DecidableEq

/-- The `switch (effect)` field update at the head of `getUpdatedFilter`
(lines 2567–2584). -/
def setEffect (ef : Effects) : EffectKey → ℚ → Effects
  | .opacity, v => { ef with opacity := v }
  | .blur, v => { ef with blur := v }
  | .brightness, v => { ef with brightness := v }
  | .saturation, v => { ef with saturation := v }
  | .gammaR, v => { ef with gammaR := v }
  | .gammaG, v => { ef with gammaG := v }
  | .gammaB, v => { ef with gammaB := v }

/-- The fabric.js image filter objects constructed by `getUpdatedFilter`. -/
inductive FabricFilter
  | Blur (blur : ℚ)
  | Brightness (brightness : ℚ)
  | Saturation (saturation : ℚ)
  | Gamma (r g b : ℚ)
deriving DecidableEq

/-- `getUpdatedFilter` (lines 2566–2625).  The gamma parameters are stored
rounded to one decimal: `Math.round((g * 0.022) * 10) / 10`. -/
def getUpdatedFilter (effects : Effects) (effect : EffectKey) (value : ℚ) :
    List FabricFilter :=
  let ef := setEffect effects effect value
  (if 0 < ef.blur then [FabricFilter.Blur (ef.blur / 100)] else []) ++
  (if ef.brightness ≠ 50 then
      [FabricFilter.Brightness (ef.brightness / 100 * 2 - 1)] else []) ++
  (if ef.saturation ≠ 50 then
      [FabricFilter.Saturation (ef.saturation / 100 * 2 - 1)] else []) ++
  (if ef.gammaR ≠ 45 ∨ ef.gammaG ≠ 45 ∨ ef.gammaB ≠ 45 then
      [FabricFilter.Gamma
        ((jsRound (ef.gammaR * (22 / 1000) * 10) : ℚ) / 10)
        ((jsRound (ef.gammaG * (22 / 1000) * 10) : ℚ) / 10)
        ((jsRound (ef.gammaB * (22 / 1000) * 10) : ℚ) / 10)]
    else [])

/-- JavaScript truthiness of `x.blur` in `filters.find(x => x.blur)`
(line 2541): the filter has a `blur` field and its value is nonzero. -/
def blurField : FabricFilter → Option ℚ
  | .Blur b => if b ≠ 0 then some b else none
  | _ => none

/-- Truthiness of `x.brightness` (line 2546). -/
def brightnessField : FabricFilter → Option ℚ
  | .Brightness b => if b ≠ 0 then some b else none
  | _ => none

/-- Truthiness of `x.saturation` (line 2551). -/
def saturationField : FabricFilter → Option ℚ
  | .Saturation s => if s ≠ 0 then some s else none
  | _ => none

/-- Truthiness of `x.gamma` (line 2556): an array is always truthy. -/
def gammaField : FabricFilter → Option (ℚ × ℚ × ℚ)
  | .Gamma r g b => some (r, g, b)
  | _ => none

/-- `getCurrentEffect` (lines 2526–2564), as a function of the selection's
filter list and its opacity. -/
def getCurrentEffect (filters : List FabricFilter) (opacity : ℚ) : Effects :=
  let e0 : Effects :=
    { opacity := opacity * 100, blur := 0, brightness := 50, saturation := 50,
      gammaR := 45, gammaG := 45, gammaB := 45 }
  let e1 := match filters.findSome? blurField with
    | some b => { e0 with blur := b * 100 }
    | none => e0
  let e2 := match filters.findSome? brightnessField with
    | some b => { e1 with brightness := (b + 1) / 2 * 100 }
    | none => e1
  let e3 := match filters.findSome? saturationField with
    | some s => { e2 with saturation := (s + 1) / 2 * 100 }
    | none => e2
  match filters.findSome? gammaField with
  | some g =>
      { e3 with gammaR := (jsRound (g.1 / (22 / 1000)) : ℚ),
                gammaG := (jsRound (g.2.1 / (22 / 1000)) : ℚ),
                gammaB := (jsRound (g.2.2 / (22 / 1000)) : ℚ) }
  | none => e3

/-- The neutral slider state: the `updatedEffects` initializer of
`getCurrentEffect`, at full opacity. -/
def neutralEffects : Effects :=
  { opacity := 100, blur := 0, brightness := 50, saturation := 50,
    gammaR := 45, gammaG := 45, gammaB := 45 }

/-- Set one slider starting from the neutral state, build the filter list
with `getUpdatedFilter`, and read it back with `getCurrentEffect` (for a
selection at opacity 1). -/
def effectRoundTrip (k : EffectKey) (v : ℚ) : Effects :=
  getCurrentEffect (getUpdatedFilter neutralEffects k v) 1

/-! ## Angle snapping (`core.js` lines 730–763 and 852–969) -/

open Classical in
/-- JavaScript `parseInt` applied to a real number: truncation toward
zero. -/
noncomputable def jsTruncR (x : ℝ) : ℤ :=
  if 0 ≤ x then ⌊x⌋ else -⌊-x⌋

/-- JavaScript `%` on numbers: `a - n * trunc(a / n)` (remainder keeps the
dividend's sign). -/
noncomputable def jsModR (a n : ℝ) : ℝ :=
  a - n * (jsTruncR (a / n) : ℝ)

/-- The angle-snap computation shared by the line tool (line 744) and the
path tool (line 880): `parseInt(((angle + 7.5) % 360) / 15) * 15`, with the
angle in degrees. -/
noncomputable def snapAngleDeg (angle : ℝ) : ℝ :=
  (jsTruncR (jsModR (angle + 7.5) 360 / 15) : ℝ) * 15

/-- `Math.atan2 y x`. -/
noncomputable def atan2 (y x : ℝ) : ℝ :=
  if 0 < x then Real.arctan (y / x)
  else if x < 0 then
    (if 0 ≤ y then Real.arctan (y / x) + Real.pi
     else Real.arctan (y / x) - Real.pi)
  else if 0 < y then Real.pi / 2
  else if y < 0 then -(Real.pi / 2)
  else 0

/-- The shift-key branch of the line tool's `mouse:move` handler
(lines 735–752): the snapped free endpoint of the line being drawn, given
the anchor `(startX, startY)` and the pointer. -/
noncomputable def lineSnapEndpoint (startX startY pointerX pointerY : ℝ) : ℝ × ℝ :=
  let x2 := pointerX - startX
  let y2 := pointerY - startY
  let r := Real.sqrt (x2 * x2 + y2 * y2)
  let angle := snapAngleDeg (atan2 y2 x2 / Real.pi * 180)
  (r * Real.cos (angle * Real.pi / 180) + startX,
   r * Real.sin (angle * Real.pi / 180) + startY)

/-- The shift-key branch of the path tool's `mouse:move` handler
(lines 869–887), which duplicates the line tool's formula: the snapped
preview endpoint relative to the last committed point. -/
noncomputable def pathAngleSnapEndpoint (startX startY pointerX pointerY : ℝ) : ℝ × ℝ :=
  let x2 := pointerX - startX
  let y2 := pointerY - startY
  let r := Real.sqrt (x2 * x2 + y2 * y2)
  let angle := snapAngleDeg (atan2 y2 x2 / Real.pi * 180)
  (r * Real.cos (angle * Real.pi / 180) + startX,
   r * Real.sin (angle * Real.pi / 180) + startY)

/-- Euclidean distance in the plane. -/
noncomputable def euclidDist (a b : ℝ × ℝ) : ℝ :=
  Real.sqrt ((a.1 - b.1) ^ 2 + (a.2 - b.2) ^ 2)

/-! ## Path drawing: commands, proximity snapping, cancellation -/

/-- A command of `pathToDraw.path`: `['M', x, y]`, `['L', x, y]` or
`['Q', cx, cy, x, y]`. -/
inductive PathCmd
  | M (x y : ℝ)
  | L (x y : ℝ)
  | Q (cx cy x y : ℝ)

/-- The coordinates the proximity-snap loop reads: `p[1], p[2]` for
`M`/`L` commands and `p[3], p[4]` (the segment endpoint) for `Q` commands
(lines 897 and 904). -/
def PathCmd.endpoint : PathCmd → ℝ × ℝ
  | M x y => (x, y)
  | L x y => (x, y)
  | Q _ _ x y => (x, y)

/-- `lastPoint[1], lastPoint[2]` regardless of command kind, as read by the
shift-snap branch (lines 871–873); for a `Q` these are the control-point
coordinates. -/
def PathCmd.coord12 : PathCmd → ℝ × ℝ
  | M x y => (x, y)
  | L x y => (x, y)
  | Q cx cy _ _ => (cx, cy)

/-- `inRange` (lines 781–790): an axis-aligned square test on both
coordinate offsets, not a Euclidean disc. -/
def inRange (radius cursorX cursorY targetX targetY : ℝ) : Prop :=
  |cursorX - targetX| ≤ radius ∧ |cursorY - targetY| ≤ radius

open Classical in
/-- The `for (let p of snapPoints)` loop with its `break` (lines 895–910):
the endpoint of the first command in range of the cursor, if any. -/
noncomputable def findSnapPoint (pointerX pointerY : ℝ) :
    List PathCmd → Option (ℝ × ℝ)
  | [] => none
  | p :: rest =>
      if inRange 10 pointerX pointerY p.endpoint.1 p.endpoint.2 then some p.endpoint
      else findSnapPoint pointerX pointerY rest

open Classical in
/-- The preview endpoint computed by the path tool's `mouse:move` handler
(lines 852–969) in the plain previewing state (`isDrawingCurve` and
`isMouseDown` both false).  `committed` is `pathToDraw.path` after the
handler pops the previous preview element; the snap loop then works on a
copy of it with one more element popped (`committed.dropLast`), so the most
recently placed point is not a snap candidate. -/
noncomputable def pathPreviewEndpoint (committed : List PathCmd)
    (pointerX pointerY : ℝ) (shift : Bool) : ℝ × ℝ :=
  let base :=
    if shift then
      match committed.getLast? with
      | some lastPoint =>
          pathAngleSnapEndpoint lastPoint.coord12.1 lastPoint.coord12.2 pointerX pointerY
      | none => (pointerX, pointerY)
    else (pointerX, pointerY)
  if 1 < committed.length then
    match findSnapPoint pointerX pointerY committed.dropLast with
    | some q => q
    | none => base
  else base

/-- The path-drawing session state seen by the cancel listeners:
the path object currently on the canvas (`none` once removed) and the
`isDrawingPath` flag. -/
structure PathSession where
  canvasPath : Option (List PathCmd)
  isDrawingPath : Bool

/-- `cancelDrawing` (lines 1007–1036) acting on the path command list:
pop the last (uncommitted preview) element; keep the trimmed path on the
canvas when more than one element remains (`some`), otherwise remove the
whole path object from the canvas (`none`). -/
def cancelDrawing (p : List PathCmd) : Option (List PathCmd) :=
  let p1 := p.dropLast
  if 1 < p1.length then some p1 else none

/-- The Escape `keydown` cancel listener (lines 1039–1044). -/
def pathCancelKeydown (key : Nat) (s : PathSession) : PathSession :=
  if s.isDrawingPath = false then s
  else if key = 27 then
    match s.canvasPath with
    | some p => { canvasPath := cancelDrawing p, isDrawingPath := false }
    | none => s
  else s

/-- The outside-click `mousedown` cancel listener (lines 1046–1052);
`outsideCanvas` stands for
`!document.querySelector('.canvas-container').contains(e.target)`. -/
def pathCancelMousedown (outsideCanvas : Bool) (s : PathSession) : PathSession :=
  if s.isDrawingPath = false then s
  else if outsideCanvas then
    match s.canvasPath with
    | some p => { canvasPath := cancelDrawing p, isDrawingPath := false }
    | none => s
  else s

/-! ## Helper lemmas -/

theorem jsTrunc_of_nonneg {q : ℚ} (h : 0 ≤ q) : jsTrunc q = ⌊q⌋ := by
  unfold jsTrunc
  exact if_pos h

theorem jsTrunc_intCast (n : ℤ) : jsTrunc (n : ℚ) = n := by
  unfold jsTrunc
  rcases le_or_lt 0 ((n : ℚ)) with h | h
  · rw [if_pos h, Int.floor_intCast]
  · rw [if_neg (not_le.mpr h), ← Int.cast_neg, Int.floor_intCast, neg_neg]

theorem jsTrunc_eq_of {q : ℚ} {n : ℤ} (h0 : 0 ≤ q) (h1 : (n : ℚ) ≤ q)
    (h2 : q < n + 1) : jsTrunc q = n := by
  rw [jsTrunc_of_nonneg h0]
  exact Int.floor_eq_iff.mpr ⟨h1, by exact_mod_cast h2⟩

theorem jsRound_eq_of {q : ℚ} {n : ℤ} (h1 : (n : ℚ) ≤ q + 1 / 2)
    (h2 : q + 1 / 2 < n + 1) : jsRound q = n := by
  unfold jsRound
  exact Int.floor_eq_iff.mpr ⟨h1, by exact_mod_cast h2⟩

/-! ## Zoom lemmas -/

theorem floorMult25_dvd (u : ℤ) : 25 ∣ floorMult25 u :=
  ⟨u / 25, by rw [floorMult25, Int.emod_def]; ring⟩

theorem ceilMult25_dvd (u : ℤ) : 25 ∣ ceilMult25 u :=
  ⟨u / 25 + 1, by rw [ceilMult25, Int.emod_def]; ring⟩

/-- Bounds for the lower clamp `(updatedZoom <= 0) ? minZoom : updatedZoom`
applied to a multiple of 25 no greater than 300. -/
theorem zoom_lower_clamp_bounds {u1 : ℤ} (h25 : 25 ∣ u1) (hle : u1 ≤ 300) :
    minZoom ≤ (if ((u1 : ℚ) / 100) ≤ 0 then minZoom else (u1 : ℚ) / 100)
    ∧ (if ((u1 : ℚ) / 100) ≤ 0 then minZoom else (u1 : ℚ) / 100) ≤ maxZoom := by
  split
  · exact ⟨le_refl _, by norm_num [minZoom, maxZoom]⟩
  · rename_i hpos
    push_neg at hpos
    have hq : (0 : ℚ) < (u1 : ℚ) := by
      by_contra hc
      push_neg at hc
      have : ((u1 : ℚ) / 100) ≤ 0 := by linarith
      exact absurd this (not_le.mpr hpos)
    have hpos1 : 0 < u1 := by exact_mod_cast hq
    have h25le : (25 : ℚ) ≤ (u1 : ℚ) := by exact_mod_cast Int.le_of_dvd hpos1 h25
    have h300 : ((u1 : ℚ)) ≤ 300 := by exact_mod_cast hle
    constructor
    · rw [minZoom]; linarith
    · rw [maxZoom]; linarith

/-- Bounds for the upper clamp `(updatedZoom > maxZoom) ? maxZoom : updatedZoom`
applied to a positive multiple of 25. -/
theorem zoom_upper_clamp_bounds {u1 : ℤ} (h25 : 25 ∣ u1) (hpos : 0 < u1) :
    minZoom ≤ (if maxZoom < ((u1 : ℚ) / 100) then maxZoom else (u1 : ℚ) / 100)
    ∧ (if maxZoom < ((u1 : ℚ) / 100) then maxZoom else (u1 : ℚ) / 100) ≤ maxZoom := by
  split
  · exact ⟨by norm_num [minZoom, maxZoom], le_refl _⟩
  · rename_i hles
    push_neg at hles
    have h25le : (25 : ℚ) ≤ (u1 : ℚ) := by exact_mod_cast Int.le_of_dvd hpos h25
    exact ⟨by rw [minZoom]; linarith, hles⟩

/-- Facts about `parseInt(z * 100)` for a zoom in bounds. -/
theorem zoom_percent_bounds {z : ℚ} (h1 : minZoom ≤ z) (h2 : z ≤ maxZoom) :
    0 ≤ z * 100 ∧ jsTrunc (z * 100) = ⌊z * 100⌋ ∧ 5 ≤ jsTrunc (z * 100)
    ∧ jsTrunc (z * 100) ≤ 300 ∧ ((jsTrunc (z * 100) : ℚ)) ≤ z * 100 := by
  rw [minZoom] at h1
  rw [maxZoom] at h2
  have h0 : 0 ≤ z * 100 := by linarith
  have hfl : jsTrunc (z * 100) = ⌊z * 100⌋ := jsTrunc_of_nonneg h0
  refine ⟨h0, hfl, ?_, ?_, ?_⟩
  · rw [hfl]
    exact Int.le_floor.mpr (by push_cast; linarith)
  · rw [hfl]
    have hle : (⌊z * 100⌋ : ℚ) ≤ z * 100 := Int.floor_le _
    have : (⌊z * 100⌋ : ℚ) ≤ 300 := by linarith
    exact_mod_cast this
  · rw [hfl]
    exact Int.floor_le _

/-- One keyboard zoom decrement stays within the zoom bounds. -/
theorem zoomOutKey_bounds {z : ℚ} (h1 : minZoom ≤ z) (h2 : z ≤ maxZoom) :
    minZoom ≤ zoomOutKey z ∧ zoomOutKey z ≤ maxZoom := by
  unfold zoomOutKey
  dsimp only
  split
  · exact ⟨h1, h2⟩
  · obtain ⟨h0, hfl, h5, h300, hle⟩ := zoom_percent_bounds h1 h2
    set u := jsTrunc (z * 100) with hu
    split
    · exact zoom_lower_clamp_bounds (floorMult25_dvd u)
        (by
          have hm : 0 ≤ u % 25 := Int.emod_nonneg u (by norm_num)
          rw [floorMult25]; omega)
    · rename_i hmod
      push_neg at hmod
      have hdvd : 25 ∣ u := Int.dvd_of_emod_eq_zero hmod
      have h25u : 25 ≤ u := Int.le_of_dvd (by omega) hdvd
      exact zoom_lower_clamp_bounds (by exact dvd_sub hdvd ⟨1, by ring⟩) (by omega)

/-- One keyboard zoom increment stays within the zoom bounds. -/
theorem zoomInKey_bounds {z : ℚ} (h1 : minZoom ≤ z) (h2 : z ≤ maxZoom) :
    minZoom ≤ zoomInKey z ∧ zoomInKey z ≤ maxZoom := by
  unfold zoomInKey
  dsimp only
  split
  · exact ⟨h1, h2⟩
  · obtain ⟨h0, hfl, h5, h300, hle⟩ := zoom_percent_bounds h1 h2
    set u := jsTrunc (z * 100) with hu
    split
    · rename_i hmod
      refine zoom_upper_clamp_bounds (ceilMult25_dvd u) ?_
      have hm : u % 25 < 25 := Int.emod_lt_of_pos u (by norm_num)
      rw [ceilMult25]; omega
    · rename_i hmod
      push_neg at hmod
      have hdvd : 25 ∣ u + 25 := dvd_add (Int.dvd_of_emod_eq_zero hmod) ⟨1, by ring⟩
      exact zoom_upper_clamp_bounds hdvd (by omega)

/-- C6: for every sequence of keyboard zoom increment and decrement commands
applied from any starting zoom in `[0.05, 3.0]`, the resulting zoom always
remains within `[0.05, 3.0]`. -/
theorem applyZoomCmds_stays_in_bounds (cmds : List ZoomCmd) (z : ℚ)
    (h1 : minZoom ≤ z) (h2 : z ≤ maxZoom) :
    minZoom ≤ applyZoomCmds cmds z ∧ applyZoomCmds cmds z ≤ maxZoom := by
  induction cmds generalizing z with
  | nil => exact ⟨h1, h2⟩
  | cons c cs ih =>
      have hstep : minZoom ≤ zoomCmdStep c z ∧ zoomCmdStep c z ≤ maxZoom := by
        cases c
        · exact zoomOutKey_bounds h1 h2
        · exact zoomInKey_bounds h1 h2
      have hfold : applyZoomCmds (c :: cs) z = applyZoomCmds cs (zoomCmdStep c z) := rfl
      rw [hfold]
      exact ih _ hstep.1 hstep.2

/-- Witness for `applyZoomCmds_stays_in_bounds` at zoom 1 and the command
sequence dec, dec, inc. -/
theorem applyZoomCmds_stays_in_bounds_witness :
    (minZoom ≤ (1 : ℚ) ∧ (1 : ℚ) ≤ maxZoom)
    ∧ (minZoom ≤ applyZoomCmds [ZoomCmd.dec, ZoomCmd.dec, ZoomCmd.inc] 1
       ∧ applyZoomCmds [ZoomCmd.dec, ZoomCmd.dec, ZoomCmd.inc] 1 ≤ maxZoom) :=
  ⟨⟨by norm_num [minZoom], by norm_num [maxZoom]⟩,
   applyZoomCmds_stays_in_bounds [ZoomCmd.dec, ZoomCmd.dec, ZoomCmd.inc] 1
     (by norm_num [minZoom]) (by norm_num [maxZoom])⟩

/-- C3 counterexample: at zoom 0.10 (whole-percent 10, not a multiple of 25)
a single keyboard decrement clamps to the minimum zoom 0.05, whose
whole-percent form 5 is not a multiple of 25 — so the decrement does not
always land on a multiple of 25. -/
theorem zoomOutKey_claim_counterexample :
    ¬ (25 ∣ jsTrunc ((1 / 10 : ℚ) * 100))
    ∧ zoomOutKey (1 / 10) = minZoom
    ∧ ¬ (25 ∣ jsTrunc (zoomOutKey (1 / 10) * 100)) := by
  have h10 : jsTrunc ((1 / 10 : ℚ) * 100) = 10 := by
    rw [show ((1 : ℚ) / 10 * 100) = ((10 : ℤ) : ℚ) by norm_num, jsTrunc_intCast]
  have hz : zoomOutKey (1 / 10) = minZoom := by
    rw [zoomOutKey, if_neg (by norm_num [minZoom])]
    dsimp only
    rw [h10]
    norm_num [floorMult25]
  refine ⟨by rw [h10]; decide, hz, ?_⟩
  rw [hz, minZoom,
    show ((5 : ℚ) / 100 * 100) = ((5 : ℤ) : ℚ) by norm_num, jsTrunc_intCast]
  decide

/-- C3 amended: from a zoom in bounds whose whole-percent form `u` is not a
multiple of 25, a single keyboard decrement never exceeds the original zoom;
it lands on a multiple of 25 whenever `25 < u`, and clamps to the minimum
zoom 0.05 (not a multiple of 25) whenever `u < 25`. -/
theorem zoomOutKey_dec_amended (z : ℚ) (h1 : minZoom ≤ z) (h2 : z ≤ maxZoom)
    (hnd : ¬ (25 ∣ jsTrunc (z * 100))) :
    zoomOutKey z ≤ z
    ∧ (25 < jsTrunc (z * 100) → 25 ∣ jsTrunc (zoomOutKey z * 100))
    ∧ (jsTrunc (z * 100) < 25 → zoomOutKey z = minZoom) := by
  obtain ⟨h0, hfl, h5, h300, hle⟩ := zoom_percent_bounds h1 h2
  by_cases hz : z = minZoom
  · have he : zoomOutKey z = z := by rw [zoomOutKey, if_pos hz]
    have hu5 : jsTrunc (z * 100) = 5 := by
      rw [hz, minZoom,
        show ((5 : ℚ) / 100 * 100) = ((5 : ℤ) : ℚ) by norm_num, jsTrunc_intCast]
    refine ⟨le_of_eq he, fun hlt => ?_, fun _ => he.trans hz⟩
    rw [hu5] at hlt
    omega
  · have hmod : jsTrunc (z * 100) % 25 ≠ 0 := fun h => hnd (Int.dvd_of_emod_eq_zero h)
    have hform : zoomOutKey z =
        if ((floorMult25 (jsTrunc (z * 100)) : ℚ) / 100 ≤ 0) then minZoom
        else (floorMult25 (jsTrunc (z * 100)) : ℚ) / 100 := by
      rw [zoomOutKey, if_neg hz]
      dsimp only
      rw [if_pos hmod]
    refine ⟨?_, fun hgt => ?_, fun hlt => ?_⟩
    · rw [hform]
      split
      · exact le_trans (le_refl minZoom) h1
      · have hless : floorMult25 (jsTrunc (z * 100)) ≤ jsTrunc (z * 100) := by
          rw [floorMult25]; omega
        have hcast : ((floorMult25 (jsTrunc (z * 100)) : ℚ)) ≤ ((jsTrunc (z * 100) : ℚ)) := by
          exact_mod_cast hless
        linarith
    · have hge : 25 ≤ floorMult25 (jsTrunc (z * 100)) := by
        rw [floorMult25]; omega
      have hpos : ¬ ((floorMult25 (jsTrunc (z * 100)) : ℚ) / 100 ≤ 0) := by
        intro hc
        have h25q : (25 : ℚ) ≤ ((floorMult25 (jsTrunc (z * 100)) : ℚ)) := by exact_mod_cast hge
        linarith
      rw [hform, if_neg hpos, div_mul_cancel₀ _ (by norm_num : (100 : ℚ) ≠ 0),
        jsTrunc_intCast]
      exact floorMult25_dvd _
    · have hzero : floorMult25 (jsTrunc (z * 100)) = 0 := by
        rw [floorMult25]; omega
      rw [hform, hzero]
      norm_num

/-- Witness for `zoomOutKey_dec_amended` at zoom 0.30. -/
theorem zoomOutKey_dec_amended_witness :
    (minZoom ≤ (3 / 10 : ℚ) ∧ (3 / 10 : ℚ) ≤ maxZoom
      ∧ ¬ (25 ∣ jsTrunc ((3 / 10 : ℚ) * 100)))
    ∧ (zoomOutKey (3 / 10) ≤ (3 / 10 : ℚ)
       ∧ (25 < jsTrunc ((3 / 10 : ℚ) * 100) → 25 ∣ jsTrunc (zoomOutKey (3 / 10) * 100))
       ∧ (jsTrunc ((3 / 10 : ℚ) * 100) < 25 → zoomOutKey (3 / 10) = minZoom)) := by
  have h30 : jsTrunc ((3 / 10 : ℚ) * 100) = 30 := by
    rw [show ((3 : ℚ) / 10 * 100) = ((30 : ℤ) : ℚ) by norm_num, jsTrunc_intCast]
  exact ⟨⟨by norm_num [minZoom], by norm_num [maxZoom], by rw [h30]; decide⟩,
    zoomOutKey_dec_amended (3 / 10) (by norm_num [minZoom]) (by norm_num [maxZoom])
      (by rw [h30]; decide)⟩

/-- C4 counterexample: with a text input focused, the ctrl+`-` zoom chord
still changes the zoom — `zoomWithKeys` never consults the focus state, so
the zoom shortcut is not suppressed. -/
theorem zoomWithKeys_not_suppressed_counterexample :
    (KeyEvent.mk 189 true true).inputFocused = true
    ∧ zoomWithKeys ⟨189, true, true⟩ 1 ≠ 1 := by
  refine ⟨rfl, ?_⟩
  have hdisp : zoomWithKeys ⟨189, true, true⟩ 1 = zoomOutKey 1 := by
    rw [zoomWithKeys]
    norm_num
  have h100 : jsTrunc ((1 : ℚ) * 100) = 100 := by
    rw [show ((1 : ℚ) * 100) = ((100 : ℤ) : ℚ) by norm_num, jsTrunc_intCast]
  rw [hdisp, zoomOutKey, if_neg (by norm_num [minZoom])]
  dsimp only
  rw [h100]
  norm_num [minZoom]

/-- C4 amended: while a text input or textarea has focus, the arrow-key
nudge, the Delete removal and the ctrl+Z/ctrl+Y history handlers are
suppressed (no editor state changes), but the keyboard zoom chords are not:
`zoomWithKeys` behaves identically whether or not an input has focus. -/
theorem keyboard_focus_suppression_amended {Doc : Type} (parse : String → Option Doc)
    (st : EditorState Doc) (e : KeyEvent) (activeObject : Option (ℚ × ℚ))
    (objects active : List Nat) (z : ℚ) (hfocus : e.inputFocused = true) :
    arrowKeydown e activeObject = activeObject
    ∧ deleteKeydown e objects active = objects
    ∧ ctrZY parse e st = st
    ∧ zoomWithKeys e z = zoomWithKeys ⟨e.key, e.ctrlKey, false⟩ z := by
  refine ⟨?_, ?_, ?_, ?_⟩
  · rw [arrowKeydown.eq_def, if_pos hfocus]
  · rw [deleteKeydown, if_neg (by simp [hfocus])]
  · rw [ctrZY, if_neg (by simp [hfocus])]
  · cases e
    rfl

/-- Witness for `keyboard_focus_suppression_amended` with the delete key
pressed while an input is focused. -/
theorem keyboard_focus_suppression_amended_witness :
    ((KeyEvent.mk 46 true true).inputFocused = true)
    ∧ (arrowKeydown ⟨46, true, true⟩ (some (0, 0)) = some (0, 0)
       ∧ deleteKeydown ⟨46, true, true⟩ [1] [1] = [1]
       ∧ ctrZY (fun _ => (none : Option Nat)) ⟨46, true, true⟩ ⟨0, [], []⟩ = ⟨0, [], []⟩
       ∧ zoomWithKeys ⟨46, true, true⟩ 1 = zoomWithKeys ⟨46, true, false⟩ 1) :=
  ⟨rfl, keyboard_focus_suppression_amended (fun _ => (none : Option Nat)) ⟨0, [], []⟩
    ⟨46, true, true⟩ (some (0, 0)) [1] [1] 1 rfl⟩

/-! ## Effect mapping lemmas -/

theorem getUpdatedFilter_blur (v : ℚ) :
    getUpdatedFilter neutralEffects EffectKey.blur v
      = if 0 < v then [FabricFilter.Blur (v / 100)] else [] := by
  simp [getUpdatedFilter, setEffect, neutralEffects]

theorem getUpdatedFilter_brightness (v : ℚ) :
    getUpdatedFilter neutralEffects EffectKey.brightness v
      = if v ≠ 50 then [FabricFilter.Brightness (v / 100 * 2 - 1)] else [] := by
  simp [getUpdatedFilter, setEffect, neutralEffects]

theorem getUpdatedFilter_saturation (v : ℚ) :
    getUpdatedFilter neutralEffects EffectKey.saturation v
      = if v ≠ 50 then [FabricFilter.Saturation (v / 100 * 2 - 1)] else [] := by
  simp [getUpdatedFilter, setEffect, neutralEffects]

theorem getUpdatedFilter_gammaR (v : ℚ) (hv : v ≠ 45) :
    getUpdatedFilter neutralEffects EffectKey.gammaR v
      = [FabricFilter.Gamma ((jsRound (v * (22 / 1000) * 10) : ℚ) / 10)
          ((jsRound ((45 : ℚ) * (22 / 1000) * 10) : ℚ) / 10)
          ((jsRound ((45 : ℚ) * (22 / 1000) * 10) : ℚ) / 10)] := by
  simp [getUpdatedFilter, setEffect, neutralEffects, hv]

theorem getUpdatedFilter_gammaG (v : ℚ) (hv : v ≠ 45) :
    getUpdatedFilter neutralEffects EffectKey.gammaG v
      = [FabricFilter.Gamma ((jsRound ((45 : ℚ) * (22 / 1000) * 10) : ℚ) / 10)
          ((jsRound (v * (22 / 1000) * 10) : ℚ) / 10)
          ((jsRound ((45 : ℚ) * (22 / 1000) * 10) : ℚ) / 10)] := by
  simp [getUpdatedFilter, setEffect, neutralEffects, hv]

theorem getUpdatedFilter_gammaB (v : ℚ) (hv : v ≠ 45) :
    getUpdatedFilter neutralEffects EffectKey.gammaB v
      = [FabricFilter.Gamma ((jsRound ((45 : ℚ) * (22 / 1000) * 10) : ℚ) / 10)
          ((jsRound ((45 : ℚ) * (22 / 1000) * 10) : ℚ) / 10)
          ((jsRound (v * (22 / 1000) * 10) : ℚ) / 10)] := by
  simp [getUpdatedFilter, setEffect, neutralEffects, hv]

theorem getCurrentEffect_nil : getCurrentEffect [] 1 = neutralEffects := by
  simp [getCurrentEffect, neutralEffects]

theorem getCurrentEffect_single_blur (b : ℚ) (hb : b ≠ 0) :
    getCurrentEffect [FabricFilter.Blur b] 1
      = { neutralEffects with blur := b * 100 } := by
  simp [getCurrentEffect, List.findSome?, blurField, brightnessField,
    saturationField, gammaField, hb, neutralEffects]

theorem getCurrentEffect_single_brightness (b : ℚ) (hb : b ≠ 0) :
    getCurrentEffect [FabricFilter.Brightness b] 1
      = { neutralEffects with brightness := (b + 1) / 2 * 100 } := by
  simp [getCurrentEffect, List.findSome?, blurField, brightnessField,
    saturationField, gammaField, hb, neutralEffects]

theorem getCurrentEffect_single_saturation (b : ℚ) (hb : b ≠ 0) :
    getCurrentEffect [FabricFilter.Saturation b] 1
      = { neutralEffects with saturation := (b + 1) / 2 * 100 } := by
  simp [getCurrentEffect, List.findSome?, blurField, brightnessField,
    saturationField, gammaField, hb, neutralEffects]

theorem getCurrentEffect_single_gamma (r g b : ℚ) :
    getCurrentEffect [FabricFilter.Gamma r g b] 1
      = { neutralEffects with
            gammaR := (jsRound (r / (22 / 1000)) : ℚ),
            gammaG := (jsRound (g / (22 / 1000)) : ℚ),
            gammaB := (jsRound (b / (22 / 1000)) : ℚ) } := by
  simp [getCurrentEffect, List.findSome?, blurField, brightnessField,
    saturationField, gammaField, neutralEffects]

theorem effectRoundTrip_blur (v : ℚ) (h0 : 0 ≤ v) :
    (effectRoundTrip EffectKey.blur v).blur = v := by
  rw [effectRoundTrip, getUpdatedFilter_blur]
  rcases lt_or_eq_of_le h0 with hv | hv
  · rw [if_pos hv, getCurrentEffect_single_blur _ (by positivity)]
    field_simp
  · rw [if_neg (by rw [← hv]; norm_num), getCurrentEffect_nil]
    rw [← hv]
    rfl

theorem effectRoundTrip_brightness (v : ℚ) :
    (effectRoundTrip EffectKey.brightness v).brightness = v := by
  rw [effectRoundTrip, getUpdatedFilter_brightness]
  by_cases hv : v = 50
  · rw [if_neg (by simp [hv]), getCurrentEffect_nil, hv]
    rfl
  · have hb : v / 100 * 2 - 1 ≠ 0 := by
      intro h
      apply hv
      field_simp at h
      linarith
    rw [if_pos hv, getCurrentEffect_single_brightness _ hb]
    field_simp
    ring

theorem effectRoundTrip_saturation (v : ℚ) :
    (effectRoundTrip EffectKey.saturation v).saturation = v := by
  rw [effectRoundTrip, getUpdatedFilter_saturation]
  by_cases hv : v = 50
  · rw [if_neg (by simp [hv]), getCurrentEffect_nil, hv]
    rfl
  · have hb : v / 100 * 2 - 1 ≠ 0 := by
      intro h
      apply hv
      field_simp at h
      linarith
    rw [if_pos hv, getCurrentEffect_single_saturation _ hb]
    field_simp
    ring

/-- The gamma read-back formula: the stored parameter is quantized to one
decimal, so reading the slider back yields
`Math.round(Math.round(v * 0.22) * 100 / 22)`, not `v`. -/
theorem effectRoundTrip_gammaR_formula (v : ℚ) (hv : v ≠ 45) :
    (effectRoundTrip EffectKey.gammaR v).gammaR
      = ((jsRound ((jsRound (v * (22 / 100)) : ℚ) * 100 / 22) : ℤ) : ℚ) := by
  rw [effectRoundTrip, getUpdatedFilter_gammaR v hv, getCurrentEffect_single_gamma]
  have harg : v * (22 / 1000) * 10 = v * (22 / 100) := by ring
  rw [harg]
  norm_num
  congr 1
  field_simp
  ring

/-- The same quantized read-back formula for the green gamma channel. -/
theorem effectRoundTrip_gammaG_formula (v : ℚ) (hv : v ≠ 45) :
    (effectRoundTrip EffectKey.gammaG v).gammaG
      = ((jsRound ((jsRound (v * (22 / 100)) : ℚ) * 100 / 22) : ℤ) : ℚ) := by
  rw [effectRoundTrip, getUpdatedFilter_gammaG v hv, getCurrentEffect_single_gamma]
  have harg : v * (22 / 1000) * 10 = v * (22 / 100) := by ring
  rw [harg]
  norm_num
  congr 1
  field_simp
  ring

/-- The same quantized read-back formula for the blue gamma channel. -/
theorem effectRoundTrip_gammaB_formula (v : ℚ) (hv : v ≠ 45) :
    (effectRoundTrip EffectKey.gammaB v).gammaB
      = ((jsRound ((jsRound (v * (22 / 100)) : ℚ) * 100 / 22) : ℤ) : ℚ) := by
  rw [effectRoundTrip, getUpdatedFilter_gammaB v hv, getCurrentEffect_single_gamma]
  have harg : v * (22 / 1000) * 10 = v * (22 / 100) := by ring
  rw [harg]
  norm_num
  congr 1
  field_simp
  ring

/-- C1 counterexample: setting the red-gamma slider to 46 (inside 0..100 and
distinct from the neutral 45) and reading it back yields 45, not 46 — the
one-decimal quantization of the stored gamma parameter breaks the
round-trip. -/
theorem effectRoundTrip_gamma_counterexample :
    (effectRoundTrip EffectKey.gammaR 46).gammaR = 45 ∧ (45 : ℚ) ≠ 46 := by
  constructor
  · rw [effectRoundTrip_gammaR_formula 46 (by norm_num)]
    rw [show jsRound ((46 : ℚ) * (22 / 100)) = 10 from
      jsRound_eq_of (by norm_num) (by norm_num)]
    rw [show jsRound (((10 : ℤ) : ℚ) * 100 / 22) = 45 from
      jsRound_eq_of (by norm_num) (by norm_num)]
    norm_num
  · norm_num

/-- C1 amended: for sliders in 0..100, building the filter list with
`getUpdatedFilter` and reading it back with `getCurrentEffect` returns
exactly the slider value for blur, brightness and saturation (with no filter
entry produced at the neutral points, where the read returns the default);
for the gamma channels the read-back is the quantized value
`Math.round(Math.round(v * 0.22) * 100 / 22)`, which differs from `v` in
general. -/
theorem effect_mapping_roundTrip_amended (v : ℚ) (h0 : 0 ≤ v) (h100 : v ≤ 100) :
    (effectRoundTrip EffectKey.blur v).blur = v
    ∧ (effectRoundTrip EffectKey.brightness v).brightness = v
    ∧ (effectRoundTrip EffectKey.saturation v).saturation = v
    ∧ getUpdatedFilter neutralEffects EffectKey.blur 0 = []
    ∧ getUpdatedFilter neutralEffects EffectKey.brightness 50 = []
    ∧ getUpdatedFilter neutralEffects EffectKey.saturation 50 = []
    ∧ getUpdatedFilter neutralEffects EffectKey.gammaR 45 = []
    ∧ (effectRoundTrip EffectKey.gammaR 45).gammaR = 45
    ∧ (v ≠ 45 → (effectRoundTrip EffectKey.gammaR v).gammaR
        = ((jsRound ((jsRound (v * (22 / 100)) : ℚ) * 100 / 22) : ℤ) : ℚ))
    ∧ (v ≠ 45 → (effectRoundTrip EffectKey.gammaG v).gammaG
        = ((jsRound ((jsRound (v * (22 / 100)) : ℚ) * 100 / 22) : ℤ) : ℚ))
    ∧ (v ≠ 45 → (effectRoundTrip EffectKey.gammaB v).gammaB
        = ((jsRound ((jsRound (v * (22 / 100)) : ℚ) * 100 / 22) : ℤ) : ℚ)) := by
  refine ⟨effectRoundTrip_blur v h0, effectRoundTrip_brightness v,
    effectRoundTrip_saturation v, ?_, ?_, ?_, ?_, ?_, fun hv =>
      effectRoundTrip_gammaR_formula v hv, fun hv =>
      effectRoundTrip_gammaG_formula v hv, fun hv =>
      effectRoundTrip_gammaB_formula v hv⟩
  · rw [getUpdatedFilter_blur]
    norm_num
  · rw [getUpdatedFilter_brightness]
    norm_num
  · rw [getUpdatedFilter_saturation]
    norm_num
  · simp [getUpdatedFilter, setEffect, neutralEffects]
  · rw [effectRoundTrip]
    rw [show getUpdatedFilter neutralEffects EffectKey.gammaR 45 = [] by
      simp [getUpdatedFilter, setEffect, neutralEffects]]
    rw [getCurrentEffect_nil]
    rfl

/-- Witness for `effect_mapping_roundTrip_amended` at slider value 30. -/
theorem effect_mapping_roundTrip_amended_witness :
    (0 ≤ (30 : ℚ) ∧ (30 : ℚ) ≤ 100)
    ∧ ((effectRoundTrip EffectKey.blur 30).blur = 30
       ∧ (effectRoundTrip EffectKey.brightness 30).brightness = 30
       ∧ (effectRoundTrip EffectKey.saturation 30).saturation = 30
       ∧ getUpdatedFilter neutralEffects EffectKey.blur 0 = []
       ∧ getUpdatedFilter neutralEffects EffectKey.brightness 50 = []
       ∧ getUpdatedFilter neutralEffects EffectKey.saturation 50 = []
       ∧ getUpdatedFilter neutralEffects EffectKey.gammaR 45 = []
       ∧ (effectRoundTrip EffectKey.gammaR 45).gammaR = 45
       ∧ ((30 : ℚ) ≠ 45 → (effectRoundTrip EffectKey.gammaR 30).gammaR
           = ((jsRound ((jsRound ((30 : ℚ) * (22 / 100)) : ℚ) * 100 / 22) : ℤ) : ℚ))
       ∧ ((30 : ℚ) ≠ 45 → (effectRoundTrip EffectKey.gammaG 30).gammaG
           = ((jsRound ((jsRound ((30 : ℚ) * (22 / 100)) : ℚ) * 100 / 22) : ℤ) : ℚ))
       ∧ ((30 : ℚ) ≠ 45 → (effectRoundTrip EffectKey.gammaB 30).gammaB
           = ((jsRound ((jsRound ((30 : ℚ) * (22 / 100)) : ℚ) * 100 / 22) : ℤ) : ℚ))) :=
  ⟨⟨by norm_num, by norm_num⟩,
   effect_mapping_roundTrip_amended 30 (by norm_num) (by norm_num)⟩

/-! ## History lemmas -/

theorem historyUndo_canvas {Doc : Type} (st : EditorState Doc) :
    (historyUndo st).canvas = st.canvas := by
  rw [historyUndo.eq_def]
  cases st.undoList.getLast? <;> rfl

theorem historyRedo_canvas {Doc : Type} (st : EditorState Doc) :
    (historyRedo st).canvas = st.canvas := by
  rw [historyRedo.eq_def]
  cases st.redoList.getLast? <;> rfl

/-- C8: if the snapshot retrieved for an undo (or redo) fails to parse, the
operation leaves the canvas document unchanged; the `try`/`catch` in the
source (modelled by the `Option`-valued `parse`) means no exception escapes
and the session keeps a well-defined state. -/
theorem undo_redo_parse_failure_silent {Doc : Type} (parse : String → Option Doc)
    (st : EditorState Doc) :
    (∀ s, st.undoList.getLast? = some s → parse s = none →
        (undoOp parse st).canvas = st.canvas)
    ∧ (∀ s, st.redoList.getLast? = some s → parse s = none →
        (redoOp parse st).canvas = st.canvas) := by
  constructor
  · intro s hs hp
    rw [undoOp.eq_def, hs]
    dsimp only
    split
    · exact historyUndo_canvas st
    · rw [hp]
      exact historyUndo_canvas st
  · intro s hs hp
    rw [redoOp.eq_def, hs]
    dsimp only
    split
    · exact historyRedo_canvas st
    · rw [hp]
      exact historyRedo_canvas st

/-- Witness for `undo_redo_parse_failure_silent`: a parser that always fails
on a state with one undo snapshot and one redo snapshot. -/
theorem undo_redo_parse_failure_silent_witness :
    (undoOp (fun _ => (none : Option Nat)) ⟨0, ["bad"], ["worse"]⟩).canvas = 0
    ∧ (redoOp (fun _ => (none : Option Nat)) ⟨0, ["bad"], ["worse"]⟩).canvas = 0 :=
  ⟨(undo_redo_parse_failure_silent (fun _ => (none : Option Nat))
      ⟨0, ["bad"], ["worse"]⟩).1 "bad" rfl rfl,
   (undo_redo_parse_failure_silent (fun _ => (none : Option Nat))
      ⟨0, ["bad"], ["worse"]⟩).2 "worse" rfl rfl⟩

/-! ## Path cancellation -/

/-- C7: cancelling an in-progress path (Escape, or a pointer-down outside
the canvas region) removes exactly the last (uncommitted preview) element
when at least 2 elements remain afterwards, and removes the whole path
object from the canvas otherwise; in particular a path that only has its
first placed point (its initial `M x y L x y` form) is removed entirely. -/
theorem path_cancel_removes_preview_or_path (s : PathSession) (p : List PathCmd)
    (hdraw : s.isDrawingPath = true) (hpath : s.canvasPath = some p) :
    (2 ≤ p.dropLast.length →
        (pathCancelKeydown 27 s).canvasPath = some p.dropLast
        ∧ (pathCancelMousedown true s).canvasPath = some p.dropLast)
    ∧ (p.dropLast.length < 2 →
        (pathCancelKeydown 27 s).canvasPath = none
        ∧ (pathCancelMousedown true s).canvasPath = none)
    ∧ (∀ x y : ℝ,
        (pathCancelKeydown 27
          ⟨some [PathCmd.M x y, PathCmd.L x y], true⟩).canvasPath = none) := by
  have hkey : pathCancelKeydown 27 s = ⟨cancelDrawing p, false⟩ := by
    rw [pathCancelKeydown, if_neg (by rw [hdraw]; simp), if_pos rfl, hpath]
  have hmouse : pathCancelMousedown true s = ⟨cancelDrawing p, false⟩ := by
    rw [pathCancelMousedown, if_neg (by rw [hdraw]; simp), if_pos rfl, hpath]
  refine ⟨fun h2 => ?_, fun h2 => ?_, fun x y => ?_⟩
  · rw [hkey, hmouse]
    have : cancelDrawing p = some p.dropLast := by
      rw [cancelDrawing, if_pos (by omega)]
    rw [this]
    exact ⟨rfl, rfl⟩
  · rw [hkey, hmouse]
    have : cancelDrawing p = none := by
      rw [cancelDrawing, if_neg (by omega)]
    rw [this]
    exact ⟨rfl, rfl⟩
  · rw [pathCancelKeydown]
    simp [cancelDrawing]

/-- Witness for `path_cancel_removes_preview_or_path` on a three-element
path. -/
theorem path_cancel_removes_preview_or_path_witness :
    (2 ≤ ([PathCmd.M 0 0, PathCmd.L 1 0, PathCmd.L 2 0].dropLast).length)
    ∧ (pathCancelKeydown 27
        ⟨some [PathCmd.M 0 0, PathCmd.L 1 0, PathCmd.L 2 0], true⟩).canvasPath
        = some [PathCmd.M 0 0, PathCmd.L 1 0]
    ∧ (pathCancelMousedown true
        ⟨some [PathCmd.M 0 0, PathCmd.L 1 0, PathCmd.L 2 0], true⟩).canvasPath
        = some [PathCmd.M 0 0, PathCmd.L 1 0] :=
  ⟨by simp,
   (path_cancel_removes_preview_or_path
      ⟨some [PathCmd.M 0 0, PathCmd.L 1 0, PathCmd.L 2 0], true⟩
      [PathCmd.M 0 0, PathCmd.L 1 0, PathCmd.L 2 0] rfl rfl).1 (by simp)⟩

/-! ## Angle-snap lemmas -/

theorem jsTruncR_of_nonneg {x : ℝ} (h : 0 ≤ x) : jsTruncR x = ⌊x⌋ := by
  unfold jsTruncR
  exact if_pos h

theorem jsTruncR_of_neg {x : ℝ} (h : ¬ 0 ≤ x) : jsTruncR x = -⌊-x⌋ := by
  unfold jsTruncR
  exact if_neg h

/-- In the first snap sector (`0 ≤ angle + 7.5 < 15`) the snapped angle is
zero. -/
theorem snapAngleDeg_eq_zero {θ : ℝ} (h0 : 0 ≤ θ + 7.5) (h1 : θ + 7.5 < 15) :
    snapAngleDeg θ = 0 := by
  unfold snapAngleDeg jsModR
  have ha360 : jsTruncR ((θ + 7.5) / 360) = 0 := by
    rw [jsTruncR_of_nonneg (div_nonneg h0 (by norm_num)), Int.floor_eq_zero_iff]
    exact Set.mem_Ico.mpr ⟨div_nonneg h0 (by norm_num),
      by rw [div_lt_one (by norm_num)]; linarith⟩
  rw [ha360]
  have ha15 : jsTruncR ((θ + 7.5 - 360 * ((0 : ℤ) : ℝ)) / 15) = 0 := by
    rw [show θ + 7.5 - 360 * ((0 : ℤ) : ℝ) = θ + 7.5 by push_cast; ring]
    rw [jsTruncR_of_nonneg (div_nonneg h0 (by norm_num)), Int.floor_eq_zero_iff]
    exact Set.mem_Ico.mpr ⟨div_nonneg h0 (by norm_num),
      by rw [div_lt_one (by norm_num)]; linarith⟩
  rw [ha15]
  norm_num

/-- The snap formula keeps the distance to the anchor: the endpoint is
`(r cos a + sx, r sin a + sy)` with `r` the pointer distance. -/
theorem lineSnapEndpoint_dist (sx sy px py : ℝ) :
    euclidDist (lineSnapEndpoint sx sy px py) (sx, sy) = euclidDist (px, py) (sx, sy) := by
  unfold lineSnapEndpoint euclidDist
  dsimp only
  set a := snapAngleDeg (atan2 (py - sy) (px - sx) / Real.pi * 180) * Real.pi / 180 with ha
  set r := Real.sqrt ((px - sx) * (px - sx) + (py - sy) * (py - sy)) with hr
  have hsq : (r * Real.cos a + sx - sx) ^ 2 + (r * Real.sin a + sy - sy) ^ 2
      = r ^ 2 * (Real.cos a ^ 2 + Real.sin a ^ 2) := by ring
  rw [hsq, Real.cos_sq_add_sin_sq, mul_one, Real.sqrt_sq (by rw [hr]; positivity)]
  rw [hr]
  congr 1
  ring

/-- C10: angle snapping preserves the Euclidean distance from the anchor to
the pointer, for the line tool and for the path tool's preview alike. -/
theorem angle_snap_preserves_distance (sx sy px py : ℝ) :
    euclidDist (lineSnapEndpoint sx sy px py) (sx, sy) = euclidDist (px, py) (sx, sy)
    ∧ euclidDist (pathAngleSnapEndpoint sx sy px py) (sx, sy)
        = euclidDist (px, py) (sx, sy) :=
  ⟨lineSnapEndpoint_dist sx sy px py,
   by
    rw [show pathAngleSnapEndpoint = lineSnapEndpoint from rfl]
    exact lineSnapEndpoint_dist sx sy px py⟩

/-- The C2 scenario computed on the code: anchor `(0,0)`, pointer `(100,5)`,
angle-snap held.  The angle snaps to `0°` but the radius `√10025` is kept. -/
theorem lineSnap_scenario_eq : lineSnapEndpoint 0 0 100 5 = (Real.sqrt 10025, 0) := by
  have hA0 : (0 : ℝ) < Real.arctan (1 / 20) := by
    have h := Real.arctan_strictMono (show (0 : ℝ) < 1 / 20 by norm_num)
    rwa [Real.arctan_zero] at h
  have hA1 : Real.arctan (1 / 20) < 1 / 20 := by
    have h := Real.lt_tan hA0 (Real.arctan_lt_pi_div_two _)
    rwa [Real.tan_arctan] at h
  have hpi := Real.pi_gt_three
  have hθ0 : 0 < Real.arctan (1 / 20) / Real.pi * 180 :=
    mul_pos (div_pos hA0 Real.pi_pos) (by norm_num)
  have hθ1 : Real.arctan (1 / 20) / Real.pi * 180 < 7.5 := by
    rw [div_mul_eq_mul_div, div_lt_iff Real.pi_pos]
    nlinarith
  have hatan : atan2 ((5 : ℝ) - 0) (100 - 0) = Real.arctan (1 / 20) := by
    rw [atan2, if_pos (by norm_num : (0 : ℝ) < (100 : ℝ) - 0)]
    norm_num
  have hsnap : snapAngleDeg (Real.arctan (1 / 20) / Real.pi * 180) = 0 :=
    snapAngleDeg_eq_zero (by linarith) (by linarith)
  unfold lineSnapEndpoint
  dsimp only
  rw [hatan, hsnap]
  norm_num [Real.cos_zero, Real.sin_zero, Prod.ext_iff]

/-- C2 counterexample: the committed endpoint is not exactly `(100, 0)` —
its first coordinate is the preserved pointer distance `√10025 ≈ 100.125`,
not `100`. -/
theorem lineSnap_scenario_counterexample :
    lineSnapEndpoint 0 0 100 5 ≠ ((100 : ℝ), 0) := by
  rw [lineSnap_scenario_eq]
  intro h
  have h1 : Real.sqrt 10025 = 100 := congrArg Prod.fst h
  have h2 := Real.mul_self_sqrt (show (0 : ℝ) ≤ 10025 by norm_num)
  rw [h1] at h2
  norm_num at h2

/-- C2 amended: with angle-snap held and the pointer at `(100, 5)` from
anchor `(0, 0)`, the committed endpoint is `(√10025, 0)`: the direction
snaps to `0°` (the `y` coordinate is exactly `0`) while the distance to the
pointer is preserved, so the `x` coordinate is `√10025`, not `100`. -/
theorem lineSnap_scenario_amended :
    lineSnapEndpoint 0 0 100 5 = (Real.sqrt 10025, 0) ∧ Real.sqrt 10025 ≠ 100 := by
  refine ⟨lineSnap_scenario_eq, fun h1 => ?_⟩
  have h2 := Real.mul_self_sqrt (show (0 : ℝ) ≤ 10025 by norm_num)
  rw [h1] at h2
  norm_num at h2

theorem atan2_neg_one_one_deg : atan2 (-1) 1 / Real.pi * 180 = -45 := by
  have h : atan2 (-1 : ℝ) 1 = -(Real.pi / 4) := by
    rw [atan2, if_pos (by norm_num : (0 : ℝ) < 1)]
    norm_num [Real.arctan_neg, Real.arctan_one]
  rw [h]
  field_simp
  ring

theorem snapAngleDeg_neg45 : snapAngleDeg (-45) = -30 := by
  unfold snapAngleDeg jsModR
  have h1 : jsTruncR (((-45 : ℝ) + 7.5) / 360) = 0 := by
    rw [show (((-45 : ℝ) + 7.5) / 360) = -(37.5 / 360) by norm_num,
      jsTruncR_of_neg (by norm_num), neg_neg,
      show ⌊(37.5 : ℝ) / 360⌋ = 0 from
        Int.floor_eq_zero_iff.mpr (Set.mem_Ico.mpr ⟨by norm_num, by norm_num⟩)]
    norm_num
  rw [h1]
  have h2 : jsTruncR (((-45 : ℝ) + 7.5 - 360 * ((0 : ℤ) : ℝ)) / 15) = -2 := by
    rw [show (((-45 : ℝ) + 7.5 - 360 * ((0 : ℤ) : ℝ)) / 15) = -(2.5 : ℝ) by
        push_cast; norm_num,
      jsTruncR_of_neg (by norm_num), neg_neg,
      show ⌊(2.5 : ℝ)⌋ = 2 from Int.floor_eq_iff.mpr ⟨by norm_num, by norm_num⟩]
  rw [h2]
  norm_num

/-- C5 (code bug): `parseInt` truncates toward zero, so for negative angles
the snap does not pick the nearest multiple of 15°.  At the pointer vector
`(1, -1)` the polar angle is exactly `-45°` — itself a multiple of 15° — yet
the code snaps it to `-30°`, moving the endpoint away from the pointer; the
path tool's preview (`pathAngleSnapEndpoint`) computes the same formula. -/
theorem snapAngle_negative_truncation_bug :
    atan2 (-1) 1 / Real.pi * 180 = -45
    ∧ snapAngleDeg (-45) = -30
    ∧ lineSnapEndpoint 0 0 1 (-1) ≠ ((1 : ℝ), -1)
    ∧ pathAngleSnapEndpoint 0 0 1 (-1) = lineSnapEndpoint 0 0 1 (-1) := by
  refine ⟨atan2_neg_one_one_deg, snapAngleDeg_neg45, ?_, rfl⟩
  unfold lineSnapEndpoint
  dsimp only
  intro h
  have h2 := congrArg Prod.snd h
  dsimp only at h2
  rw [show ((-1 : ℝ) - 0) = -1 by norm_num, show ((1 : ℝ) - 0) = 1 by norm_num,
    atan2_neg_one_one_deg, snapAngleDeg_neg45] at h2
  rw [show ((-30 : ℝ) * Real.pi / 180) = -(Real.pi / 6) by ring] at h2
  rw [Real.sin_neg, Real.sin_pi_div_six] at h2
  have hs : Real.sqrt ((1 : ℝ) * 1 + -1 * -1) = Real.sqrt 2 := by norm_num
  rw [hs] at h2
  have h3 : Real.sqrt 2 = 2 := by linarith
  have h4 := Real.mul_self_sqrt (show (0 : ℝ) ≤ 2 by norm_num)
  rw [h3] at h4
  norm_num at h4

/-! ## Proximity snapping -/

theorem findSnapPoint_first {px py : ℝ} {l2 : List PathCmd} (l1 : List PathCmd)
    {p : PathCmd}
    (hfirst : ∀ q ∈ l1, ¬ inRange 10 px py q.endpoint.1 q.endpoint.2)
    (hp : inRange 10 px py p.endpoint.1 p.endpoint.2) :
    findSnapPoint px py (l1 ++ p :: l2) = some p.endpoint := by
  induction l1 with
  | nil =>
      rw [List.nil_append, findSnapPoint, if_pos hp]
  | cons q qs ih =>
      rw [List.cons_append, findSnapPoint,
        if_neg (hfirst q (List.mem_cons_self q qs))]
      exact ih fun r hr => hfirst r (List.mem_cons_of_mem q hr)

/-- C9 amended: while previewing (any shift state), if the pointer is within
the 10px square (`|Δx| ≤ 10` and `|Δy| ≤ 10`, not a Euclidean disc) of some
previously placed point other than the most recently placed one, the
previewed endpoint is set exactly to the coordinates of the first such point
in path order (curve commands contribute their endpoints). -/
theorem pathPreview_snaps_to_first_candidate (committed : List PathCmd)
    (px py : ℝ) (shift : Bool) (l1 l2 : List PathCmd) (p : PathCmd)
    (hsplit : committed.dropLast = l1 ++ p :: l2)
    (hfirst : ∀ q ∈ l1, ¬ inRange 10 px py q.endpoint.1 q.endpoint.2)
    (hp : inRange 10 px py p.endpoint.1 p.endpoint.2) :
    pathPreviewEndpoint committed px py shift = p.endpoint := by
  have hlen : 1 < committed.length := by
    have h1 : committed.dropLast.length = committed.length - 1 := by
      simp [List.length_dropLast]
    have h2 : 0 < committed.dropLast.length := by rw [hsplit]; simp
    have h3 : committed ≠ [] := by
      intro hc
      rw [hc] at h2
      simp at h2
    have h4 : 0 < committed.length := List.length_pos.mpr h3
    omega
  unfold pathPreviewEndpoint
  dsimp only
  rw [if_pos hlen, hsplit, findSnapPoint_first l1 hfirst hp]

/-- Witness for `pathPreview_snaps_to_first_candidate`: a three-point path
with the pointer near the first placed point. -/
theorem pathPreview_snaps_to_first_candidate_witness :
    inRange 10 2 3 0 0
    ∧ pathPreviewEndpoint [PathCmd.M 0 0, PathCmd.L 100 0, PathCmd.L 5 5] 2 3 false
        = (0, 0) := by
  have hin : inRange 10 (2 : ℝ) 3 0 0 := by
    constructor <;> · rw [abs_le]; constructor <;> norm_num
  exact ⟨hin,
    pathPreview_snaps_to_first_candidate
      [PathCmd.M 0 0, PathCmd.L 100 0, PathCmd.L 5 5] 2 3 false
      [] [PathCmd.L 100 0] (PathCmd.M 0 0) rfl (by simp) hin⟩

/-- C9 counterexample: the most recently placed point is excluded from the
snap candidates.  With the path `M (0,0) L (100,0)` and the pointer at
`(100, 3)` — within a 10-pixel radius of the placed point `(100, 0)` — the
preview stays at the raw pointer `(100, 3)` instead of snapping. -/
theorem pathPreview_claim_counterexample :
    euclidDist (100, 3) (100, 0) ≤ 10
    ∧ pathPreviewEndpoint [PathCmd.M 0 0, PathCmd.L 100 0] 100 3 false = (100, 3)
    ∧ ((100 : ℝ), (3 : ℝ)) ≠ ((100 : ℝ), (0 : ℝ)) := by
  refine ⟨?_, ?_, ?_⟩
  · unfold euclidDist
    dsimp only
    rw [show ((100 : ℝ) - 100) ^ 2 + ((3 : ℝ) - 0) ^ 2 = 3 ^ 2 by norm_num,
      Real.sqrt_sq (by norm_num : (0 : ℝ) ≤ 3)]
    norm_num
  · unfold pathPreviewEndpoint
    dsimp only
    rw [if_pos (by norm_num)]
    rw [show ([PathCmd.M 0 0, PathCmd.L 100 0].dropLast) = [PathCmd.M 0 0] from rfl]
    rw [findSnapPoint, if_neg ?hnr, findSnapPoint]
    · rfl
    case hnr =>
      intro hc
      have h1 := hc.1
      dsimp [PathCmd.endpoint] at h1
      rw [show ((100 : ℝ) - 0) = 100 by norm_num, abs_le] at h1
      linarith [h1.2]
  · intro h
    have h2 := congrArg Prod.snd h
    norm_num at h2

end FabricCustomizer
